import Mathlib

/-
  Shallow embedding of the google-photos-backup tool (src/index.ts).

  The embedding models the traversal-and-download pipeline of the tool:
  checkpoint load and save, URL canonicalization, the date resolver with
  its HTML fallback, collision handling of file placement, the
  previous-photo navigation probe, and the main backup loop of the
  function called start.  Browser and filesystem effects are represented
  by an explicit environment (Env) and an event trace (List Ev); the
  filesystem of the destination directory is the list of paths that
  exist there.
-/

/-! ## URL canonicalization (function clean, src/index.ts lines 39-41)

The source is: link.replace(/\/u\/\d+\//, '/') — replace the first
occurrence of the pattern slash u slash digits slash by a single slash. -/

/-- Consume a run of digits followed by a slash, returning the remaining
characters; this is the suffix d+ slash of the regex used by clean
after its first digit has been seen. -/
def skipDigitsSlash : List Char → Option (List Char)
  | [] => none
  | c :: r => if c.isDigit then skipDigitsSlash r else if c = '/' then some r else none

/-- Attempt to match the regex of clean at the head of the list: a slash,
the letter u, a slash, then one or more digits, then a slash.  On success
return the characters that follow the matched text. -/
def matchUAt (s : List Char) : Option (List Char) :=
  match s with
  | a :: b :: c :: d :: r =>
    if a = '/' ∧ b = 'u' ∧ c = '/' ∧ d.isDigit then skipDigitsSlash r else none
  | _ => none

/-- Replace the first (leftmost) match of the regex of clean by a single
slash, as the non-global JavaScript replace does. -/
def replaceFirstU : List Char → List Char
  | [] => []
  | c :: r =>
    match matchUAt (c :: r) with
    | some rest => '/' :: rest
    | none => c :: replaceFirstU r

/-- True when the regex of clean matches somewhere in the list. -/
def hasU : List Char → Bool
  | [] => false
  | c :: r => (matchUAt (c :: r)).isSome || hasU r

/-- Embedding of clean (src/index.ts lines 39-41): remove the first
account-index path segment from a URL. -/
def clean (link : String) : String :=
  String.mk (replaceFirstU link.toList)

example : clean "https://host/u/3/photo/abc" = "https://host/photo/abc" := by decide
example : clean "https://host/photo/abc" = "https://host/photo/abc" := by decide
example : hasU "https://host/photo/abc".toList = false := by decide

/-! ## Date scraping from page markup (src/index.ts lines 241-250)

The regex of the source is, written out:
aria-label="(?:Photo|Video) ((?:[EN DASH or -]) ([^" EN DASH -]+))+"
and the code keeps match.pop(), the capture of the innermost group in its
last repetition.  The functions below implement exactly this pattern with
the backtracking semantics of JavaScript regexes: the character class
cannot usefully backtrack because the characters it yields back can never
match the dash or the closing quote that must follow it. -/

/-- The literal prefix of the regex, aria-label= followed by a double
quote. -/
def ariaLit : List Char := "aria-label=\"".toList

/-- The first alternative of the kind group followed by its space. -/
def photoLit : List Char := "Photo ".toList

/-- The second alternative of the kind group followed by its space. -/
def videoLit : List Char := "Video ".toList

/-- Characters allowed by the negated class of the regex: anything but a
double quote, an en dash or a hyphen. -/
def classChar (c : Char) : Bool := c ≠ '"' ∧ c ≠ '–' ∧ c ≠ '-'

/-- Parser state for the repetition part of the regex: between two
repetitions (the accumulator holds the text of the last completed
repetition, or none before the first one), right after a dash, right
after the space that follows a dash, or inside the character class with
the group text collected so far. -/
inductive RepState where
  | between (acc : Option String)
  | afterDash (acc : Option String)
  | afterSpace (acc : Option String)
  | inGroup (grp : List Char)

/-- One-or-more repetitions of (dash space text) followed by the closing
quote, consuming one character per step.  The result is the text of the
last repetition, which is what match.pop() returns in the source.  The
greedy character class never needs to backtrack: the characters it could
yield back can match neither the dash nor the closing quote that must
follow it, so a deterministic scan is exact. -/
def repsStep : List Char → RepState → Option String
  | [], _ => none
  | c :: r, RepState.between acc =>
    if c = '"' then acc
    else if c = '–' ∨ c = '-' then repsStep r (RepState.afterDash acc)
    else none
  | c :: r, RepState.afterDash acc =>
    if c = ' ' then repsStep r (RepState.afterSpace acc) else none
  | c :: r, RepState.afterSpace _ =>
    if classChar c then repsStep r (RepState.inGroup [c]) else none
  | c :: r, RepState.inGroup grp =>
    if classChar c then repsStep r (RepState.inGroup (grp ++ [c]))
    else if c = '"' then some (String.mk grp)
    else if c = '–' ∨ c = '-' then repsStep r (RepState.afterDash (some (String.mk grp)))
    else none

/-- Attempt to match the full aria-label regex at the head of the list,
returning the text of the last repetition (the value of match.pop() in
the source). -/
def matchAriaAt (s : List Char) : Option String :=
  if ariaLit.isPrefixOf s then
    let t := s.drop ariaLit.length
    if photoLit.isPrefixOf t then repsStep (t.drop photoLit.length) (RepState.between none)
    else if videoLit.isPrefixOf t then repsStep (t.drop videoLit.length) (RepState.between none)
    else none
  else none

/-- Leftmost search of the regex over the markup, as regex.exec does. -/
def execAria : List Char → Option String
  | [] => none
  | c :: r =>
    match matchAriaAt (c :: r) with
    | some v => some v
    | none => execAria r

/-- The date text the source extracts from the page markup: the value of
match.pop() for the first match of the aria-label regex, if any. -/
def ariaDateText (html : String) : Option String :=
  execAria html.toList

example : ariaDateText "zz aria-label=\"Photo - Jan 5, 2020\" yy" = some "Jan 5, 2020" := by decide
example : ariaDateText "no label here" = none := by decide
example : ariaDateText "aria-label=\"Video – May 7, 1999\"" = some "May 7, 1999" := by decide
example : ariaDateText "aria-label=\"Photo \"" = none := by decide

/-! ## The JavaScript Date constructor on the scraped caption text

The source runs new Date(lastMatch) and reads getFullYear() and
getMonth().  The captions scraped from the page have the English shape
month name, day, comma, year, as in Jan 5, 2020.  The model below covers
exactly that shape; any other input gives an Invalid Date, whose
getFullYear() and getMonth() are NaN.  NaN is modeled as the value none
of an Option Int throughout the date computation. -/

/-- Three-letter English month names understood by the Date model, in
calendar order; the index in this list is the value of getMonth(). -/
def monthNames : List String :=
  ["Jan", "Feb", "Mar", "Apr", "May", "Jun", "Jul", "Aug", "Sep", "Oct", "Nov", "Dec"]

/-- Numeric value of a run of decimal digit characters. -/
def digitsVal (l : List Char) : Nat :=
  l.foldl (fun a c => a * 10 + (c.toNat - 48)) 0

/-- Read a nonempty run of digits from the head of the list, returning
its value and the remaining characters. -/
def readNat (s : List Char) : Option (Nat × List Char) :=
  let ds := s.takeWhile Char.isDigit
  if ds = [] then none else some (digitsVal ds, s.dropWhile Char.isDigit)

/-- Model of the JavaScript Date constructor restricted to the caption
shape month-name day comma year; the result is (getFullYear, getMonth),
so the month is zero-based.  Anything else is an Invalid Date, rendered
as none. -/
def jsDateParse (s : String) : Option (Int × Nat) :=
  let cs := s.toList
  match monthNames.findIdx? (fun m => m.toList.isPrefixOf cs) with
  | none => none
  | some mIdx =>
    match cs.drop 3 with
    | ' ' :: r1 =>
      match readNat r1 with
      | none => none
      | some (_, r2) =>
        match r2 with
        | ',' :: ' ' :: r3 =>
          match readNat r3 with
          | none => none
          | some (y, r4) => if r4 = [] then some ((y : Int), mIdx) else none
        | _ => none
    | _ => none

example : jsDateParse "Jan 5, 2020" = some (2020, 0) := by decide
example : jsDateParse "May 17, 1999" = some (1999, 4) := by decide
example : jsDateParse "gibberish" = none := by decide

/-! ## Date resolution (downloadPhoto, src/index.ts lines 228-259)

The source reads the embedded DateTimeOriginal metadata, coerces its
year and month with JavaScript or-defaults (year or 1970, month or 1,
where undefined and 0 are falsy), and only when the coerced pair is
exactly (1970, 1) falls back to scraping the page markup. -/

/-- Embedded capture-date metadata of a downloaded asset: the year and
month fields of DateTimeOriginal, each possibly absent. -/
structure ExifDate where
  year : Option Int
  month : Option Int
deriving DecidableEq

/-- JavaScript or-default on a possibly absent number: undefined and 0
are falsy and give the default. -/
def jsOr (o : Option Int) (d : Int) : Int :=
  match o with
  | some v => if v = 0 then d else v
  | none => d

/-- The scraped-markup branch of the date resolution: when the regex
matches, the popped text goes through new Date; an unparsable text
yields NaN year and month (modeled as none).  When the regex does not
match, the result is none (the source keeps the sentinel values). -/
def scrapedDate (html : String) : Option (Option Int × Option Int) :=
  (ariaDateText html).map (fun t =>
    match jsDateParse t with
    | some (y, mIdx) => (some y, some ((mIdx : Int) + 1))
    | none => (none, none))

/-- Embedding of the date resolution of downloadPhoto (src/index.ts
lines 228-259): metadata first, coerced by or-defaults; the markup
fallback runs exactly when the coerced pair is the sentinel (1970, 1).
The pair components are none when the corresponding JavaScript number
would be NaN. -/
def resolveDate (metadata : Option ExifDate) (html : String) : Option Int × Option Int :=
  let year := jsOr (metadata.bind ExifDate.year) 1970
  let month := jsOr (metadata.bind ExifDate.month) 1
  if year = 1970 ∧ month = 1 then
    match scrapedDate html with
    | some ym => ym
    | none => (some year, some month)
  else (some year, some month)

example : resolveDate none "zz aria-label=\"Photo - Jan 5, 2020\" yy" = (some 2020, some 1) := by decide
example : resolveDate none "nothing" = (some 1970, some 1) := by decide
example : resolveDate (some (ExifDate.mk (some 2005) (some 7))) "zz aria-label=\"Photo - Jan 5, 2020\" yy" = (some 2005, some 7) := by decide
example : resolveDate (some (ExifDate.mk (some 2005) none)) "zz aria-label=\"Photo - Jan 5, 2020\" yy" = (some 2005, some 1) := by decide

/-! ## File placement and downloadPhoto (src/index.ts lines 203-271)

The destination filesystem is the list of paths that already exist under
the photo directory.  moveFile models the npmcli moveFile call: it
fails exactly when the destination exists and overwrite is false, and
otherwise makes the destination exist.  downloadPhoto produces the event
trace of one invocation, the updated filesystem, and whether it called
process.exit(1) (which the source does when the driver reports no
download path). -/

/-- Rendering of a JavaScript number in a template string: NaN prints as
the three letters NaN. -/
def showJsInt : Option Int → String
  | some v => toString v
  | none => "NaN"

/-- Model of path.join on plain segments. -/
def pathJoin (segs : List String) : String :=
  String.intercalate "/" segs

/-- Model of moveFile(temp, dest, overwrite): fails exactly when the
destination path already exists and overwrite is false; on success the
destination exists (and the temporary file is gone from staging, which
the model does not track in the destination filesystem). -/
def moveFile (fs : List String) (dest : String) (overwrite : Bool) : Option (List String) :=
  if dest ∈ fs ∧ overwrite = false then none
  else some (if dest ∈ fs then fs else dest :: fs)

/-- Events observable in a run: checkpoint writes, browser lifecycle,
process exit, page navigations, downloads, metadata writes, placement
attempts (with their destination and success), clicks on the
previous-photo control (with the element index clicked), and the URL
change the loop awaits after a click. -/
inductive Ev where
  | saveCheckpoint (url : String)
  | browserLaunch
  | browserClose
  | exiftoolEnd
  | exitProcess (code : Nat)
  | gotoUrl (url : String)
  | download (url : String)
  | exifWrite (path : String)
  | placeAttempt (url : String) (dest : String) (ok : Bool)
  | clickPrev (url : String) (idx : Nat)
  | navigate (fromUrl : String) (toUrl : String)
deriving DecidableEq

/-- Options of downloadPhoto, in source order: photoDirectory, overwrite,
writeScrapedExif, flatDirectoryStructure.  The source defaults the last
three to false when a call site omits them. -/
structure DlOpts where
  photoDirectory : String
  overwrite : Bool
  writeScrapedExif : Bool
  flatDirectoryStructure : Bool
deriving DecidableEq

/-- What one photo page yields when processed: the download path reported
by the driver (none models a failed download), the suggested filename,
the embedded metadata, and the raw markup of the page. -/
structure PhotoInfo where
  tempPath : Option String
  suggestedFilename : String
  metadata : Option ExifDate
  html : String

/-- Destination path computed by downloadPhoto (src/index.ts lines
261-263): photoDirectory/suggestedFilename in flat mode, otherwise
photoDirectory/year/month/suggestedFilename. -/
def destPath (opts : DlOpts) (info : PhotoInfo) : String :=
  let ym := resolveDate info.metadata info.html
  if opts.flatDirectoryStructure then pathJoin [opts.photoDirectory, info.suggestedFilename]
  else pathJoin [opts.photoDirectory, showJsInt ym.1, showJsInt ym.2, info.suggestedFilename]

/-- True when the coerced metadata date is the unknown sentinel, i.e.
exactly when the source consults the page markup. -/
def sentinelMeta (metadata : Option ExifDate) : Prop :=
  jsOr (metadata.bind ExifDate.year) 1970 = 1970 ∧ jsOr (metadata.bind ExifDate.month) 1 = 1

instance (metadata : Option ExifDate) : Decidable (sentinelMeta metadata) := by
  unfold sentinelMeta; infer_instance

/-- Embedding of downloadPhoto (src/index.ts lines 203-271) at a given
page URL: waits for the download (the download event), exits the process
when no path is retrievable, resolves the date (writing scraped metadata
back when enabled), computes the destination and attempts the move.  A
move failure is caught and only logged: the function then returns
normally with the filesystem unchanged, performing no rename and no
retry.  Results are the events, the updated filesystem, and whether
process.exit was called. -/
def downloadPhoto (pageUrl : String) (info : PhotoInfo) (opts : DlOpts)
    (fs : List String) : List Ev × List String × Bool :=
  match info.tempPath with
  | none => ([Ev.download pageUrl, Ev.exitProcess 1], fs, true)
  | some tempPath =>
    let exifEvs :=
      if sentinelMeta info.metadata ∧ (ariaDateText info.html).isSome ∧ opts.writeScrapedExif = true
      then [Ev.exifWrite tempPath] else []
    let dest := destPath opts info
    match moveFile fs dest opts.overwrite with
    | some fs2 => (Ev.download pageUrl :: exifEvs ++ [Ev.placeAttempt pageUrl dest true], fs2, false)
    | none => (Ev.download pageUrl :: exifEvs ++ [Ev.placeAttempt pageUrl dest false], fs, false)

/-! ## Navigation probe (src/index.ts lines 149-164)

The injected page script collects the elements of the previous-arrow
class, scans whether any of them is visible (offsetParent not null), and
if so clicks the element at index 0 — which is not necessarily the
element found visible. -/

/-- A DOM element of the previous-arrow class; offsetParentNull is true
when its offsetParent is null, i.e. when the element is not visible. -/
structure Elem where
  offsetParentNull : Bool
deriving DecidableEq

/-- Visibility probe of the source: an element is visible when its
offsetParent is not null. -/
def Elem.isVisible (e : Elem) : Bool := !e.offsetParentNull

/-- Embedding of the injected click script (src/index.ts lines 149-164):
returns false (with no click) when no element of the class is visible;
otherwise clicks the element at index 0 and returns true.  The second
component lists the indices of the elements clicked. -/
def advanceToPrevious (elements : List Elem) : Bool × List Nat :=
  if elements.any (fun e => e.isVisible) then (true, [0]) else (false, [])

example : advanceToPrevious [] = (false, []) := by decide
example : advanceToPrevious [Elem.mk true, Elem.mk false] = (true, [0]) := by decide

/-! ## Checkpoint store (src/index.ts lines 15-24) and the run (lines 43-189)

getProgress reads the .lastdone file and throws when the file is missing
or its content is the empty string.  The run environment fixes what the
external world answers: the checkpoint file content, the CLI seed URL,
the URL the browser lands on after visiting the library home, the latest
photo reported by the grid probe, the per-page photo data, the
previous-arrow elements of each page, and the URL reached after a
successful click.  The loop takes fuel because the chain of photos may
be unbounded; running out of fuel is reported as its own outcome and is
never confused with completion or an exit. -/

/-- Embedding of getProgress (src/index.ts lines 15-19): the content of
the checkpoint file, failing when the file is missing (readFile throws)
or when the content is the empty string. -/
def getProgress (file : Option String) : Except String String :=
  match file with
  | none => Except.error "ENOENT"
  | some c => if c = "" then Except.error "empty file" else Except.ok c

/-- The library home URL the run authenticates against. -/
def mainGooglePhotosUrl : String := "https://photos.google.com/"

/-- JavaScript truthiness of a possibly absent string: undefined and the
empty string are falsy. -/
def jsStr (o : Option String) : Option String :=
  match o with
  | some s => if s = "" then none else some s
  | none => none

/-- External world of one run: checkpoint file content (none when the
file is missing), the CLI seed URL (none when not passed), the URL the
browser shows after loading the library home, the result of the
latest-photo probe, the data of each photo page, the previous-arrow
elements of each page, the URL reached after clicking the arrow, the two
relevant CLI flags, the photo directory and the initial filesystem. -/
structure Env where
  lastdoneFile : Option String
  initialPhotoUrl : Option String
  redirectUrl : String
  latestPhoto : Option String
  info : String → PhotoInfo
  elements : String → List Elem
  next : String → String
  flat : Bool
  writeScrapedExif : Bool
  photoDirectory : String
  initialFs : List String

/-- How a run ends: normal completion at the latest photo, a process
exit with a code, or exhaustion of the loop fuel. -/
inductive Outcome where
  | done
  | exited (code : Nat)
  | fuelOut
deriving DecidableEq

/-- The downloadPhoto call of the loop body (src/index.ts lines
179-185), after the navigation from cur: the call site passes only
photoDirectory and writeScrapedExif, so overwrite and
flatDirectoryStructure take their false defaults. -/
def loopDownload (env : Env) (cur : String) (fs : List String) : List Ev × List String × Bool :=
  downloadPhoto (env.next cur) (env.info (env.next cur))
    (DlOpts.mk env.photoDirectory false env.writeScrapedExif false) fs

/-- Embedding of the while loop of start (src/index.ts lines 134-187):
stop when the cleaned current URL equals the cleaned latest URL;
otherwise run the injected click script, exiting the process (without
cleanup) when no previous arrow is visible; then await the URL change,
download the new photo (loopDownload) and save the checkpoint with the
new page URL. -/
def loop (env : Env) (latest : String) : Nat → String → List String → List Ev × Outcome
  | 0, _, _ => ([], Outcome.fuelOut)
  | Nat.succ fuel, cur, fs =>
    if clean cur = clean latest then ([], Outcome.done)
    else
      let adv := advanceToPrevious (env.elements cur)
      if adv.1 = false then ([Ev.exitProcess 1], Outcome.exited 1)
      else
        let nxt := env.next cur
        let d := loopDownload env cur fs
        if d.2.2 = true then
          (adv.2.map (Ev.clickPrev cur) ++ Ev.navigate cur nxt :: d.1, Outcome.exited 1)
        else
          let rest := loop env latest fuel nxt d.2.1
          (adv.2.map (Ev.clickPrev cur) ++ Ev.navigate cur nxt :: d.1
            ++ Ev.saveCheckpoint nxt :: rest.1, rest.2)

/-- Checkpoint resolution at the top of start (src/index.ts lines
60-73): load the checkpoint; on failure, either seed it from the CLI URL
(writing the checkpoint file first, hence the save event) or give up
(none), which makes the run exit 1 before any browser is launched.  The
result carries the events emitted so far and the start link. -/
def startInit (env : Env) : Option (List Ev × String) :=
  match getProgress env.lastdoneFile with
  | Except.ok c => some ([], c)
  | Except.error _ =>
    match env.initialPhotoUrl with
    | some s => if s = "" then none else some ([Ev.saveCheckpoint s], s)
    | none => none

/-- Embedding of start (src/index.ts lines 43-189).  Resolve the
checkpoint (startInit), exiting 1 when that fails.  Launch the browser,
visit the library home and exit (after cleanup) when redirected.  Probe
the latest photo and exit (after cleanup) when it cannot be determined.
Navigate to the cleaned start link, download the first photo with
overwrite true and the flat flag forwarded, then run the loop; on normal
loop completion run cleanup (browser close, exiftool end). -/
def start (env : Env) (fuel : Nat) : List Ev × Outcome :=
  match startInit env with
  | none => ([Ev.exitProcess 1], Outcome.exited 1)
  | some (evs0, startLink) =>
    let evs1 := evs0 ++ [Ev.browserLaunch, Ev.gotoUrl mainGooglePhotosUrl]
    if env.redirectUrl ≠ mainGooglePhotosUrl then
      (evs1 ++ [Ev.browserClose, Ev.exiftoolEnd, Ev.exitProcess 1], Outcome.exited 1)
    else
      match jsStr env.latestPhoto with
      | none => (evs1 ++ [Ev.browserClose, Ev.exiftoolEnd, Ev.exitProcess 1], Outcome.exited 1)
      | some latest =>
        let cur0 := clean startLink
        let evs2 := evs1 ++ [Ev.gotoUrl cur0]
        let d := downloadPhoto cur0 (env.info cur0)
          (DlOpts.mk env.photoDirectory true env.writeScrapedExif env.flat) env.initialFs
        if d.2.2 = true then (evs2 ++ d.1, Outcome.exited 1)
        else
          let l := loop env latest fuel cur0 d.2.1
          match l.2 with
          | Outcome.done => (evs2 ++ d.1 ++ l.1 ++ [Ev.browserClose, Ev.exiftoolEnd], Outcome.done)
          | o => (evs2 ++ d.1 ++ l.1, o)

/-- A concrete two-photo library used by several concrete runs below:
the checkpoint holds u0, the latest photo is u1, every page downloads
fine, has a visible previous arrow and navigates to u1. -/
def envTwo : Env :=
  Env.mk (some "u0") none mainGooglePhotosUrl (some "u1")
    (fun u => PhotoInfo.mk (some "/tmp/t") (if u = "u1" then "b.jpg" else "a.jpg") none "")
    (fun _ => [Elem.mk false])
    (fun _ => "u1") false false "root" []

example : start envTwo 3 =
  ([Ev.browserLaunch, Ev.gotoUrl mainGooglePhotosUrl, Ev.gotoUrl "u0",
    Ev.download "u0", Ev.placeAttempt "u0" "root/1970/1/a.jpg" true,
    Ev.clickPrev "u0" 0, Ev.navigate "u0" "u1",
    Ev.download "u1", Ev.placeAttempt "u1" "root/1970/1/b.jpg" true,
    Ev.saveCheckpoint "u1",
    Ev.browserClose, Ev.exiftoolEnd], Outcome.done) := by decide

/-- Classifier of download events. -/
def isDownloadEv : Ev → Bool
  | Ev.download _ => true
  | _ => false

/-- Classifier of click events on the previous-photo control. -/
def isClickEv : Ev → Bool
  | Ev.clickPrev _ _ => true
  | _ => false

/-- Classifier of checkpoint-write events. -/
def isSaveEv : Ev → Bool
  | Ev.saveCheckpoint _ => true
  | _ => false

/-- Classifier of placement-attempt events. -/
def isPlaceEv : Ev → Bool
  | Ev.placeAttempt _ _ _ => true
  | _ => false

/-! ## Theorems about the embedded program -/

/-- Shape of the run trace once the checkpoint resolved and both the
authentication check and the latest-photo probe succeed: the events of
checkpoint resolution, then browser launch, the visit of the library
home, the visit of the cleaned start link, then the rest of the run. -/
lemma start_shape_past_auth (env : Env) (fuel : Nat) (evs0 : List Ev)
    (startLink latest : String)
    (hinit : startInit env = some (evs0, startLink))
    (hred : env.redirectUrl = mainGooglePhotosUrl)
    (hl : jsStr env.latestPhoto = some latest) :
    ∃ tail, (start env fuel).1
      = evs0 ++ Ev.browserLaunch :: Ev.gotoUrl mainGooglePhotosUrl
          :: Ev.gotoUrl (clean startLink) :: tail := by
  simp only [start, hinit, hred, hl, ne_eq, not_true_eq_false, if_false]
  set d := downloadPhoto (clean startLink) (env.info (clean startLink))
    (DlOpts.mk env.photoDirectory true env.writeScrapedExif env.flat) env.initialFs with hd
  by_cases hexit : d.2.2 = true
  · rw [if_pos hexit]
    exact ⟨d.1, by simp⟩
  · rw [if_neg hexit]
    rcases hout : (loop env latest fuel (clean startLink) d.2.1).2 with _ | code | _
    · simp only [hout]
      exact ⟨d.1 ++ (loop env latest fuel (clean startLink) d.2.1).1
        ++ [Ev.browserClose, Ev.exiftoolEnd], by simp⟩
    · simp only [hout]
      exact ⟨d.1 ++ (loop env latest fuel (clean startLink) d.2.1).1, by simp⟩
    · simp only [hout]
      exact ⟨d.1 ++ (loop env latest fuel (clean startLink) d.2.1).1, by simp⟩

/-- Claim C7 (amended).  The injected previous-navigation script returns
false exactly when no control of the class is visible on the page, and
when it returns true it clicks exactly the control at index 0 of the
class list — which is not necessarily a visible one, because visibility
is probed across all elements of the class while the click always goes
to the first. -/
theorem c7_advance_visibility (es : List Elem) :
    ((advanceToPrevious es).1 = false ↔ ∀ e ∈ es, e.isVisible = false) ∧
    ((advanceToPrevious es).1 = true → (advanceToPrevious es).2 = [0] ∧ es ≠ []) := by
  by_cases h : es.any (fun e => e.isVisible) = true
  · have h1 : advanceToPrevious es = (true, [0]) := by simp [advanceToPrevious, h]
    rw [h1]
    obtain ⟨e, he, hv⟩ := List.any_eq_true.mp h
    have hv' : e.isVisible = true := hv
    refine ⟨⟨fun hc => absurd hc (by decide), fun hall => ?_⟩,
            fun _ => ⟨rfl, List.ne_nil_of_mem he⟩⟩
    exact absurd (hv'.symm.trans (hall e he)) (by decide)
  · have h0 : es.any (fun e => e.isVisible) = false := by simpa using h
    have h1 : advanceToPrevious es = (false, []) := by simp [advanceToPrevious, h0]
    rw [h1]
    refine ⟨⟨fun _ => ?_, fun _ => rfl⟩, fun hc => absurd hc (by decide)⟩
    intro e he
    have := List.any_eq_false.mp h0 e he
    simpa using this

/-- Claim C7, witness for the amended theorem at a concrete element
list with one visible control at index 0. -/
theorem c7_advance_visibility_witness :
    ((advanceToPrevious [Elem.mk false]).1 = true → (advanceToPrevious [Elem.mk false]).2 = [0] ∧ [Elem.mk false] ≠ []) ∧
    ((advanceToPrevious [Elem.mk true]).1 = false ↔ ∀ e ∈ [Elem.mk true], e.isVisible = false) :=
  ⟨(c7_advance_visibility [Elem.mk false]).2, (c7_advance_visibility [Elem.mk true]).1⟩

/-- Claim C7, counterexample to the frozen claim: with an invisible
control at index 0 and a visible one at index 1 the script returns true
and clicks index 0, whose element is invisible — so it does invoke an
invisible control. -/
theorem c7_counterexample :
    advanceToPrevious [Elem.mk true, Elem.mk false] = (true, [0]) ∧
    (Elem.mk true).isVisible = false ∧ (Elem.mk false).isVisible = true := by decide

/-- Claim C2 (amended).  When overwrite is false and the computed
destination path already exists, the move fails; the failure is caught
and only logged: the filesystem is unchanged (the existing file is not
destroyed and no renamed copy appears), the run is not terminated, and
exactly one placement attempt — the failed one — is made, with no
rename and no retry. -/
theorem c2_collision_behavior (url : String) (info : PhotoInfo) (opts : DlOpts)
    (fs : List String) (t : String)
    (ht : info.tempPath = some t) (how : opts.overwrite = false)
    (hex : destPath opts info ∈ fs) :
    (downloadPhoto url info opts fs).2.1 = fs ∧
    (downloadPhoto url info opts fs).2.2 = false ∧
    (downloadPhoto url info opts fs).1.filter isPlaceEv
      = [Ev.placeAttempt url (destPath opts info) false] := by
  unfold downloadPhoto
  rw [ht]
  simp only [moveFile, hex, how, and_self, if_pos, true_and]
  by_cases hw : sentinelMeta info.metadata ∧ (ariaDateText info.html).isSome = true ∧ opts.writeScrapedExif = true
  · simp [hw, isPlaceEv, List.filter]
  · simp [hw, isPlaceEv, List.filter]

/-- Claim C2, witness: a concrete collision with overwrite false, where
the destination computed from the embedded date is already present. -/
theorem c2_collision_behavior_witness :
    (downloadPhoto "u" (PhotoInfo.mk (some "/tmp/t") "a.jpg" (some (ExifDate.mk (some 2020) (some 1))) "")
      (DlOpts.mk "root" false false false) ["root/2020/1/a.jpg"]).2.1 = ["root/2020/1/a.jpg"] ∧
    (downloadPhoto "u" (PhotoInfo.mk (some "/tmp/t") "a.jpg" (some (ExifDate.mk (some 2020) (some 1))) "")
      (DlOpts.mk "root" false false false) ["root/2020/1/a.jpg"]).2.2 = false ∧
    (downloadPhoto "u" (PhotoInfo.mk (some "/tmp/t") "a.jpg" (some (ExifDate.mk (some 2020) (some 1))) "")
      (DlOpts.mk "root" false false false) ["root/2020/1/a.jpg"]).1.filter isPlaceEv
      = [Ev.placeAttempt "u" (destPath (DlOpts.mk "root" false false false)
          (PhotoInfo.mk (some "/tmp/t") "a.jpg" (some (ExifDate.mk (some 2020) (some 1))) "")) false] :=
  c2_collision_behavior "u"
    (PhotoInfo.mk (some "/tmp/t") "a.jpg" (some (ExifDate.mk (some 2020) (some 1))) "")
    (DlOpts.mk "root" false false false) ["root/2020/1/a.jpg"] "/tmp/t"
    (by decide) (by decide) (by decide)

/-- Claim C2, counterexample to the frozen claim: on a collision with
overwrite false the operation neither renames the incoming file nor
retries the move — the whole invocation performs a single failed
placement attempt and leaves the filesystem exactly as it was, so no
distinctly-named file is produced. -/
theorem c2_counterexample :
    downloadPhoto "u" (PhotoInfo.mk (some "/tmp/t") "a.jpg" (some (ExifDate.mk (some 2020) (some 1))) "")
      (DlOpts.mk "root" false false false) ["root/2020/1/a.jpg"]
    = ([Ev.download "u", Ev.placeAttempt "u" "root/2020/1/a.jpg" false],
       ["root/2020/1/a.jpg"], false) := by decide

/-- A two-photo library identical to envTwo but with the
flat-directory-structure option selected. -/
def envFlat : Env :=
  Env.mk (some "u0") none mainGooglePhotosUrl (some "u1")
    (fun u => PhotoInfo.mk (some "/tmp/t") (if u = "u1" then "b.jpg" else "a.jpg") none "")
    (fun _ => [Elem.mk false])
    (fun _ => "u1") true false "root" []

/-- Claim C4 (exhibiting the divergence).  In a run with flat mode
selected and two photos, the first photo is placed flat at
root/a.jpg, but the second is placed nested at root/1970/1/b.jpg: the
loop call site of downloadPhoto does not forward the
flatDirectoryStructure option, so the flat policy applies only to the
first photo of the run, contradicting the claim (and the CLI help text
of the option, which promises all photos in a single folder). -/
theorem c4_flat_only_first_photo :
    envFlat.flat = true ∧
    (start envFlat 3).1.filter isPlaceEv
      = [Ev.placeAttempt "u0" "root/a.jpg" true,
         Ev.placeAttempt "u1" "root/1970/1/b.jpg" true] ∧
    (start envFlat 3).2 = Outcome.done := by decide

/-- Claim C8.  Checkpoint load fails exactly when the file is missing or
its content is empty, and otherwise returns the content.  When it fails
and no seed URL was passed, the run exits with code 1 and its whole
trace is that single exit — in particular the browser is never launched.
When it fails and a nonempty seed URL was passed, the checkpoint file is
written with the seed before the browser launches, and (when the
authentication and latest-photo probes succeed) the first page visited
after the library home is the cleaned seed URL. -/
theorem c8_checkpoint_load :
    (∀ f : Option String, (∃ e, getProgress f = Except.error e) ↔ (f = none ∨ f = some "")) ∧
    (∀ c : String, c ≠ "" → getProgress (some c) = Except.ok c) ∧
    (∀ (env : Env) (fuel : Nat), (env.lastdoneFile = none ∨ env.lastdoneFile = some "") →
      env.initialPhotoUrl = none →
      start env fuel = ([Ev.exitProcess 1], Outcome.exited 1)) ∧
    (∀ (env : Env) (fuel : Nat) (s : String), (env.lastdoneFile = none ∨ env.lastdoneFile = some "") →
      env.initialPhotoUrl = some s → s ≠ "" →
      ∃ rest, (start env fuel).1
          = Ev.saveCheckpoint s :: Ev.browserLaunch :: Ev.gotoUrl mainGooglePhotosUrl :: rest ∧
        (env.redirectUrl = mainGooglePhotosUrl → ∀ l, jsStr env.latestPhoto = some l →
          rest.head? = some (Ev.gotoUrl (clean s)))) := by
  refine ⟨?_, ?_, ?_, ?_⟩
  · intro f
    constructor
    · rintro ⟨e, he⟩
      match f with
      | none => exact Or.inl rfl
      | some c =>
        by_cases hc : c = ""
        · exact Or.inr (by rw [hc])
        · simp [getProgress, hc] at he
    · rintro (hf | hf) <;> rw [hf]
      · exact ⟨"ENOENT", rfl⟩
      · exact ⟨"empty file", rfl⟩
  · intro c hc
    simp [getProgress, hc]
  · intro env fuel hfile hseed
    have herr : ∃ e, getProgress env.lastdoneFile = Except.error e := by
      rcases hfile with hf | hf <;> rw [hf]
      · exact ⟨"ENOENT", rfl⟩
      · exact ⟨"empty file", rfl⟩
    obtain ⟨e, he⟩ := herr
    have hinit : startInit env = none := by simp [startInit, he, hseed]
    simp [start, hinit]
  · intro env fuel s hfile hseed hs
    have herr : ∃ e, getProgress env.lastdoneFile = Except.error e := by
      rcases hfile with hf | hf <;> rw [hf]
      · exact ⟨"ENOENT", rfl⟩
      · exact ⟨"empty file", rfl⟩
    obtain ⟨e, he⟩ := herr
    have hinit : startInit env = some ([Ev.saveCheckpoint s], s) := by
      simp [startInit, he, hseed, hs]
    by_cases hred : env.redirectUrl = mainGooglePhotosUrl
    · match hl : jsStr env.latestPhoto with
      | none =>
        refine ⟨[Ev.browserClose, Ev.exiftoolEnd, Ev.exitProcess 1], ?_, ?_⟩
        · simp [start, hinit, hred, hl]
        · intro _ l hl2
          cases hl2
      | some latest =>
        obtain ⟨tail, htail⟩ := start_shape_past_auth env fuel [Ev.saveCheckpoint s] s latest hinit hred hl
        refine ⟨Ev.gotoUrl (clean s) :: tail, ?_, ?_⟩
        · simpa using htail
        · intro _ l _
          rfl
    · refine ⟨[Ev.browserClose, Ev.exiftoolEnd, Ev.exitProcess 1], ?_, fun hred2 => absurd hred2 hred⟩
      simp [start, hinit, hred]

/-- Environment with a missing checkpoint file and no seed URL. -/
def envSeedless : Env :=
  Env.mk none none mainGooglePhotosUrl (some "u1")
    (fun _ => PhotoInfo.mk (some "/tmp/t") "a.jpg" none "")
    (fun _ => [Elem.mk false])
    (fun _ => "u1") false false "root" []

/-- Environment with a missing checkpoint file and the seed URL s0. -/
def envSeeded : Env :=
  Env.mk none (some "s0") mainGooglePhotosUrl (some "u1")
    (fun _ => PhotoInfo.mk (some "/tmp/t") "a.jpg" none "")
    (fun _ => [Elem.mk false])
    (fun _ => "u1") false false "root" []

/-- Claim C8, witness: concrete instances of all four parts — load
failure on a missing file, successful load of a nonempty content, the
seedless fatal exit, and the seeded bootstrap. -/
theorem c8_checkpoint_load_witness :
    (∃ e, getProgress none = Except.error e) ∧
    getProgress (some "u0") = Except.ok "u0" ∧
    start envSeedless 1 = ([Ev.exitProcess 1], Outcome.exited 1) ∧
    (∃ rest, (start envSeeded 1).1
        = Ev.saveCheckpoint "s0" :: Ev.browserLaunch :: Ev.gotoUrl mainGooglePhotosUrl :: rest ∧
      (envSeeded.redirectUrl = mainGooglePhotosUrl → ∀ l, jsStr envSeeded.latestPhoto = some l →
        rest.head? = some (Ev.gotoUrl (clean "s0")))) :=
  ⟨(c8_checkpoint_load.1 none).mpr (Or.inl rfl),
   c8_checkpoint_load.2.1 "u0" (by decide),
   c8_checkpoint_load.2.2.1 envSeedless 1 (Or.inl rfl) rfl,
   c8_checkpoint_load.2.2.2 envSeeded 1 "s0" (Or.inl rfl) rfl (by decide)⟩

/-- When the coerced metadata date is not the sentinel, the resolver
returns it directly, never looking at the markup. -/
lemma resolveDate_not_sentinel (md : Option ExifDate) (html : String)
    (h : ¬ sentinelMeta md) :
    resolveDate md html
      = (some (jsOr (md.bind ExifDate.year) 1970), some (jsOr (md.bind ExifDate.month) 1)) := by
  unfold resolveDate
  unfold sentinelMeta at h
  rw [if_neg h]

/-- When the coerced metadata date is the sentinel, the resolver is the
markup fallback: the scraped date when the regex matches, the sentinel
pair otherwise. -/
lemma resolveDate_sentinel (md : Option ExifDate) (html : String)
    (h : sentinelMeta md) :
    resolveDate md html
      = (match scrapedDate html with
         | some ym => ym
         | none => (some 1970, some 1)) := by
  unfold resolveDate
  unfold sentinelMeta at h
  rw [if_pos h, h.1, h.2]

/-- A concrete page markup carrying the caption Photo - Jan 5, 2020. -/
def sampleHtml : String := "<div aria-label=\"Photo - Jan 5, 2020\"></div>"

/-- Claim C10.  The markup fallback runs exactly when the or-coerced
metadata pair is (1970, 1): under that condition the resolver behaves as
if the metadata were absent (first part), and in particular a photo
genuinely captured in January 1970 is resolved from the markup, not from
its own metadata (second part, concrete).  Conversely a non-sentinel
coerced pair is returned as is, independent of the markup (third part),
and metadata with a non-1970 year and an absent month resolves to that
year with month 1, with no fallback (fourth part). -/
theorem c10_sentinel_conflation :
    (∀ (md : Option ExifDate) (html : String), sentinelMeta md →
      resolveDate md html = resolveDate none html) ∧
    (resolveDate (some (ExifDate.mk (some 1970) (some 1))) sampleHtml = (some 2020, some 1) ∧
      resolveDate (some (ExifDate.mk (some 1970) (some 1))) "" = (some 1970, some 1)) ∧
    (∀ (md : Option ExifDate) (html html2 : String), ¬ sentinelMeta md →
      resolveDate md html
          = (some (jsOr (md.bind ExifDate.year) 1970), some (jsOr (md.bind ExifDate.month) 1)) ∧
      resolveDate md html = resolveDate md html2) ∧
    (∀ (y : Int) (html : String), y ≠ 1970 → y ≠ 0 →
      resolveDate (some (ExifDate.mk (some y) none)) html = (some y, some 1)) := by
  refine ⟨?_, ⟨by decide, by decide⟩, ?_, ?_⟩
  · intro md html h
    rw [resolveDate_sentinel md html h, resolveDate_sentinel none html (by decide)]
  · intro md html html2 h
    exact ⟨resolveDate_not_sentinel md html h,
      (resolveDate_not_sentinel md html h).trans (resolveDate_not_sentinel md html2 h).symm⟩
  · intro y html hy hy0
    have h : ¬ sentinelMeta (some (ExifDate.mk (some y) none)) := by
      unfold sentinelMeta
      simp [jsOr, hy0, hy]
    rw [resolveDate_not_sentinel _ _ h]
    simp [jsOr, hy0]

/-- Claim C10, witness: the fallback equivalence at genuine January 1970
metadata, the non-sentinel independence at July 2005 metadata, and the
absent-month case at year 2012. -/
theorem c10_sentinel_conflation_witness :
    resolveDate (some (ExifDate.mk (some 1970) (some 1))) sampleHtml = resolveDate none sampleHtml ∧
    (resolveDate (some (ExifDate.mk (some 2005) (some 7))) sampleHtml
        = (some (jsOr ((some (ExifDate.mk (some 2005) (some 7))).bind ExifDate.year) 1970),
           some (jsOr ((some (ExifDate.mk (some 2005) (some 7))).bind ExifDate.month) 1)) ∧
      resolveDate (some (ExifDate.mk (some 2005) (some 7))) sampleHtml
        = resolveDate (some (ExifDate.mk (some 2005) (some 7))) "other") ∧
    resolveDate (some (ExifDate.mk (some 2012) none)) sampleHtml = (some 2012, some 1) :=
  ⟨c10_sentinel_conflation.1 (some (ExifDate.mk (some 1970) (some 1))) sampleHtml (by decide),
   c10_sentinel_conflation.2.2.1 (some (ExifDate.mk (some 2005) (some 7))) sampleHtml "other" (by decide),
   c10_sentinel_conflation.2.2.2 2012 sampleHtml (by decide) (by decide)⟩

/-- A prefix of an append that fits inside the left part is a prefix of
the left part. -/
lemma prefix_of_append_left (a t u : List Char) (h : a <+: t ++ u)
    (hl : a.length ≤ t.length) : a <+: t := by
  rw [List.prefix_iff_eq_take] at h ⊢
  rw [List.take_append_eq_append_take, Nat.sub_eq_zero_of_le hl, List.take_zero,
    List.append_nil] at h
  exact h

/-- A prefix of an append that covers the whole left part contains the
left part and continues as a prefix of the right part. -/
lemma append_prefix_split (a t u : List Char) (h : a <+: t ++ u)
    (hl : t.length ≤ a.length) : t <+: a ∧ a.drop t.length <+: u := by
  rw [List.prefix_iff_eq_take, List.take_append_eq_append_take] at h
  rw [List.take_of_length_le hl] at h
  refine ⟨⟨u.take (a.length - t.length), h.symm⟩, ?_⟩
  rw [h, List.drop_left]
  exact List.take_prefix _ _

/-- The literal aria-label= quote has no nontrivial border: no proper
nonempty suffix of it is one of its prefixes. -/
lemma ariaLit_border : ∀ k, k < 12 → 0 < k → (ariaLit.drop k).isPrefixOf ariaLit = false := by decide

/-- The aria-label regex cannot match at a position strictly inside a
quote-free region that is followed by the literal: its leading literal
would need a double quote inside the region or a nontrivial border of
the literal. -/
lemma matchAriaAt_straddle (t u : List Char) (ht : t ≠ []) (hq : ∀ c ∈ t, c ≠ '"') :
    matchAriaAt (t ++ (ariaLit ++ u)) = none := by
  have hnp : ¬ (ariaLit.isPrefixOf (t ++ (ariaLit ++ u)) = true) := by
    intro hpre
    rw [ List.isPrefixOf_iff_prefix] at hpre
    have hlen : ariaLit.length = 12 := by decide
    have htpos : 0 < t.length := List.length_pos.mpr ht
    by_cases hl : 12 ≤ t.length
    · have hsub : ariaLit <+: t := prefix_of_append_left _ _ _ hpre (by omega)
      exact hq '"' (hsub.subset (by decide)) rfl
    · push_neg at hl
      obtain ⟨h1, h2⟩ := append_prefix_split ariaLit t (ariaLit ++ u) hpre (by omega)
      have hd : ariaLit.drop t.length <+: ariaLit := by
        refine prefix_of_append_left _ _ _ h2 ?_
        rw [List.length_drop]
        omega
      have hb := ariaLit_border t.length (by omega) htpos
      rw [← List.isPrefixOf_iff_prefix] at hd
      rw [hb] at hd
      cases hd
  simp [matchAriaAt, hnp]

/-- Leftmost search skips a quote-free region in front of the literal. -/
lemma execAria_skip (t u : List Char) (hq : ∀ c ∈ t, c ≠ '"') :
    execAria (t ++ (ariaLit ++ u)) = execAria (ariaLit ++ u) := by
  induction t with
  | nil => rfl
  | cons c t2 ih =>
    have hnone : matchAriaAt (c :: (t2 ++ (ariaLit ++ u))) = none := by
      have := matchAriaAt_straddle (c :: t2) u (by simp) hq
      simpa using this
    show execAria (c :: (t2 ++ (ariaLit ++ u))) = _
    simp only [execAria, hnone]
    exact ih (fun c2 hc => hq c2 (List.mem_cons_of_mem _ hc))

/-- The regex matches at the label itself and extracts the caption
text, for any continuation of the markup. -/
lemma matchAriaAt_label (post : List Char) :
    matchAriaAt (ariaLit ++ ("Photo - Jan 5, 2020\"".toList ++ post)) = some "Jan 5, 2020" := rfl

/-- Leftmost search over a markup made of a quote-free region, the
sample label and an arbitrary continuation extracts the caption text. -/
lemma execAria_label (pre post : List Char) (hq : ∀ c ∈ pre, c ≠ '"') :
    execAria (pre ++ "aria-label=\"Photo - Jan 5, 2020\"".toList ++ post) = some "Jan 5, 2020" := by
  have hsplit : "aria-label=\"Photo - Jan 5, 2020\"".toList
      = ariaLit ++ "Photo - Jan 5, 2020\"".toList := by decide
  rw [hsplit, List.append_assoc, List.append_assoc]
  rw [execAria_skip pre ("Photo - Jan 5, 2020\"".toList ++ post) hq]
  rfl

/-- Claim C6.  Date resolution: a valid non-sentinel coerced metadata
date is returned immediately and the markup is never consulted (first
part); with sentinel metadata and a markup that carries the label
aria-label=(quote)Photo - Jan 5, 2020(quote) — preceded by any
quote-free region and followed by anything — the resolved date is
(2020, 1) (second part); with sentinel metadata and a markup in which
the accessibility-label pattern has no match, the resolved date stays
the sentinel (1970, 1) (third part). -/
theorem c6_date_fallback :
    (∀ (md : Option ExifDate) (html : String), ¬ sentinelMeta md →
      resolveDate md html
          = (some (jsOr (md.bind ExifDate.year) 1970), some (jsOr (md.bind ExifDate.month) 1)) ∧
      ∀ html2, resolveDate md html = resolveDate md html2) ∧
    (∀ (md : Option ExifDate) (pre post : List Char), sentinelMeta md → (∀ c ∈ pre, c ≠ '"') →
      resolveDate md (String.mk (pre ++ "aria-label=\"Photo - Jan 5, 2020\"".toList ++ post))
        = (some 2020, some 1)) ∧
    (∀ (md : Option ExifDate) (html : String), sentinelMeta md → ariaDateText html = none →
      resolveDate md html = (some 1970, some 1)) := by
  refine ⟨?_, ?_, ?_⟩
  · intro md html h
    exact ⟨resolveDate_not_sentinel md html h,
      fun html2 => (resolveDate_not_sentinel md html h).trans
        (resolveDate_not_sentinel md html2 h).symm⟩
  · intro md pre post hs hq
    rw [resolveDate_sentinel md _ hs]
    have h1 : ariaDateText
        (String.mk (pre ++ "aria-label=\"Photo - Jan 5, 2020\"".toList ++ post))
        = some "Jan 5, 2020" := execAria_label pre post hq
    unfold scrapedDate
    rw [h1]
    decide
  · intro md html hs hnone
    rw [resolveDate_sentinel md html hs]
    unfold scrapedDate
    rw [hnone]
    rfl

/-- Claim C6, witness: absent metadata with the sample label embedded in
a concrete markup resolves to (2020, 1); absent metadata with a
label-free markup stays at the sentinel; and July 2005 metadata is
returned untouched whatever the markup. -/
theorem c6_date_fallback_witness :
    resolveDate none (String.mk ("<p> ".toList ++ "aria-label=\"Photo - Jan 5, 2020\"".toList ++ "</p>".toList))
      = (some 2020, some 1) ∧
    resolveDate none "hello" = (some 1970, some 1) ∧
    resolveDate (some (ExifDate.mk (some 2005) (some 7))) sampleHtml
      = (some (jsOr ((some (ExifDate.mk (some 2005) (some 7))).bind ExifDate.year) 1970),
         some (jsOr ((some (ExifDate.mk (some 2005) (some 7))).bind ExifDate.month) 1)) :=
  ⟨c6_date_fallback.2.1 none "<p> ".toList "</p>".toList (by decide) (by decide),
   c6_date_fallback.2.2 none "hello" (by decide) (by decide),
   (c6_date_fallback.1 (some (ExifDate.mk (some 2005) (some 7))) sampleHtml (by decide)).1⟩

/-- Consuming a run of digits followed by a slash succeeds and returns
what follows the slash. -/
lemma skipDS_digits (ds x : List Char) (h : ∀ c ∈ ds, c.isDigit = true) :
    skipDigitsSlash (ds ++ '/' :: x) = some x := by
  induction ds with
  | nil => simp [skipDigitsSlash]
  | cons c r ih =>
    have hc : c.isDigit = true := h c (by simp)
    simp only [List.cons_append, skipDigitsSlash, hc, if_pos]
    exact ih (fun c2 hc2 => h c2 (by simp [hc2]))

/-- Whether the digits-then-slash scan succeeds on a run followed by a
slash does not depend on what comes after that slash. -/
lemma skipDS_invar (r x y : List Char) :
    (skipDigitsSlash (r ++ '/' :: x)).isSome = (skipDigitsSlash (r ++ '/' :: y)).isSome := by
  induction r with
  | nil => simp [skipDigitsSlash]
  | cons c r2 ih =>
    by_cases hc : c.isDigit = true
    · simpa [skipDigitsSlash, hc] using ih
    · by_cases hs : c = '/'
      · simp [skipDigitsSlash, hc, hs]
      · simp [skipDigitsSlash, hc, hs]

/-- The regex of clean matches exactly at an account-index segment made
of a nonempty digit run. -/
lemma matchUAt_insertion (ds post : List Char) (hne : ds ≠ [])
    (hd : ∀ c ∈ ds, c.isDigit = true) :
    matchUAt ('/' :: 'u' :: '/' :: (ds ++ '/' :: post)) = some post := by
  cases ds with
  | nil => exact absurd rfl hne
  | cons d ds2 =>
    have hd1 : d.isDigit = true := hd d (by simp)
    show matchUAt ('/' :: 'u' :: '/' :: d :: (ds2 ++ '/' :: post)) = some post
    simp only [matchUAt, hd1, and_self, and_true, true_and, if_true]
    exact skipDS_digits ds2 post (fun c hc => hd c (by simp [hc]))

/-- If the regex of clean does not match at a position of the original
URL, it does not match at that position after an account-index segment
is inserted at the next slash. -/
lemma matchUAt_straddle (t ds post : List Char) (ht : t ≠ [])
    (h : matchUAt (t ++ '/' :: post) = none) :
    matchUAt (t ++ '/' :: 'u' :: '/' :: (ds ++ '/' :: post)) = none := by
  match t with
  | [a] =>
    simp only [List.cons_append, List.nil_append, matchUAt]
    rw [if_neg]
    intro hcond
    exact absurd hcond.2.1 (by decide)
  | [a, b] =>
    simp only [List.cons_append, List.nil_append, matchUAt]
    rw [if_neg]
    intro hcond
    exact absurd hcond.2.2.2 (by decide)
  | [a, b, c] =>
    simp only [List.cons_append, List.nil_append, matchUAt]
    rw [if_neg]
    intro hcond
    exact absurd hcond.2.2.2 (by decide)
  | a :: b :: c :: d :: r =>
    simp only [List.cons_append, matchUAt] at h ⊢
    by_cases hcond : a = '/' ∧ b = 'u' ∧ c = '/' ∧ d.isDigit = true
    · rw [if_pos hcond] at h ⊢
      have hinv := skipDS_invar r post ('u' :: '/' :: (ds ++ '/' :: post))
      rw [h] at hinv
      simp only [Option.isSome_none, Bool.false_eq] at hinv
      cases hopt : skipDigitsSlash (r ++ '/' :: 'u' :: '/' :: (ds ++ '/' :: post)) with
      | none => rfl
      | some v =>
        rw [hopt] at hinv
        simp at hinv
    · rw [if_neg hcond] at h ⊢

/-- A URL in which the regex of clean has no match is returned unchanged
by the replacement. -/
lemma replaceFirstU_id (l : List Char) (h : hasU l = false) : replaceFirstU l = l := by
  induction l with
  | nil => rfl
  | cons c r ih =>
    have h2 := h
    unfold hasU at h2
    rw [Bool.or_eq_false_iff] at h2
    have h1 : matchUAt (c :: r) = none := Option.not_isSome_iff_eq_none.mp (by rw [h2.1]; decide)
    simp only [replaceFirstU, h1]
    rw [ih h2.2]

/-- Replacing the first match in a URL obtained by inserting an
account-index segment into a match-free URL removes exactly that
segment. -/
lemma replaceFirstU_insertion (pre ds post : List Char) (hne : ds ≠ [])
    (hd : ∀ c ∈ ds, c.isDigit = true)
    (hfree : hasU (pre ++ '/' :: post) = false) :
    replaceFirstU (pre ++ '/' :: 'u' :: '/' :: (ds ++ '/' :: post)) = pre ++ '/' :: post := by
  induction pre with
  | nil =>
    simp only [List.nil_append]
    unfold replaceFirstU
    rw [matchUAt_insertion ds post hne hd]
  | cons c pre2 ih =>
    have h2 := hfree
    rw [List.cons_append] at h2
    unfold hasU at h2
    rw [Bool.or_eq_false_iff] at h2
    have hm : matchUAt ((c :: pre2) ++ '/' :: post) = none :=
      Option.not_isSome_iff_eq_none.mp (by rw [List.cons_append, h2.1]; decide)
    have hnone := matchUAt_straddle (c :: pre2) ds post (by simp) hm
    rw [List.cons_append] at hnone ⊢
    unfold replaceFirstU
    rw [hnone, ih h2.2]
    rfl

/-- Claim C9.  Cleaning removes the account-index path segment: the two
concrete URLs of the claim clean to the same string, and in general a
URL obtained from a match-free URL by expanding one slash into an
account-index segment (slash u slash digits slash) cleans to the same
string as the original. -/
theorem c9_clean_u_segment :
    clean "https://host/u/3/photo/abc" = clean "https://host/photo/abc" ∧
    (∀ (pre ds post : List Char), ds ≠ [] → (∀ c ∈ ds, c.isDigit = true) →
      hasU (pre ++ '/' :: post) = false →
      clean (String.mk (pre ++ '/' :: 'u' :: '/' :: (ds ++ '/' :: post)))
        = clean (String.mk (pre ++ '/' :: post))) := by
  constructor
  · decide
  · intro pre ds post h1 h2 h3
    show String.mk (replaceFirstU (pre ++ '/' :: 'u' :: '/' :: (ds ++ '/' :: post)))
      = String.mk (replaceFirstU (pre ++ '/' :: post))
    rw [replaceFirstU_insertion pre ds post h1 h2 h3, replaceFirstU_id _ h3]

/-- Claim C9, witness: the general part instantiated at the host part
https colon slash slash host, the digit run 3 and the tail photo/abc,
which reproduces the concrete URLs of the claim. -/
theorem c9_clean_u_segment_witness :
    clean (String.mk ("https://host".toList ++ '/' :: 'u' :: '/' :: (['3'] ++ '/' :: "photo/abc".toList)))
      = clean (String.mk ("https://host".toList ++ '/' :: "photo/abc".toList)) :=
  c9_clean_u_segment.2 "https://host".toList ['3'] "photo/abc".toList
    (by decide) (by decide) (by decide)

/-- The injected click script either clicks index 0 and reports true, or
clicks nothing and reports false. -/
lemma advanceToPrevious_cases (es : List Elem) :
    advanceToPrevious es = (true, [0]) ∨ advanceToPrevious es = (false, []) := by
  unfold advanceToPrevious
  by_cases h : es.any (fun e => e.isVisible) = true
  · left
    rw [if_pos h]
  · right
    rw [if_neg h]

/-- One invocation of downloadPhoto either exits after the download
event, or ends its trace with the placement attempt of the same page
URL, preceded at most by a metadata write. -/
lemma downloadPhoto_cases (u : String) (info : PhotoInfo) (opts : DlOpts) (fs : List String) :
    ((downloadPhoto u info opts fs).2.2 = true ∧
      (downloadPhoto u info opts fs).1 = [Ev.download u, Ev.exitProcess 1] ∧
      (downloadPhoto u info opts fs).2.1 = fs) ∨
    ((downloadPhoto u info opts fs).2.2 = false ∧
      ∃ w dd ok, (downloadPhoto u info opts fs).1
          = Ev.download u :: (w ++ [Ev.placeAttempt u dd ok])
        ∧ (w = [] ∨ ∃ t, w = [Ev.exifWrite t])) := by
  cases htp : info.tempPath with
  | none =>
    left
    refine ⟨?_, ?_, ?_⟩ <;> simp [downloadPhoto, htp]
  | some t =>
    right
    cases hmv : moveFile fs (destPath opts info) opts.overwrite with
    | some fs2 =>
      refine ⟨by simp [downloadPhoto, htp, hmv], ?_⟩
      by_cases hw : sentinelMeta info.metadata ∧ (ariaDateText info.html).isSome = true
          ∧ opts.writeScrapedExif = true
      · exact ⟨[Ev.exifWrite t], destPath opts info, true,
          by simp [downloadPhoto, htp, hmv, hw], Or.inr ⟨t, rfl⟩⟩
      · exact ⟨[], destPath opts info, true,
          by simp [downloadPhoto, htp, hmv, hw], Or.inl rfl⟩
    | none =>
      refine ⟨by simp [downloadPhoto, htp, hmv], ?_⟩
      by_cases hw : sentinelMeta info.metadata ∧ (ariaDateText info.html).isSome = true
          ∧ opts.writeScrapedExif = true
      · exact ⟨[Ev.exifWrite t], destPath opts info, false,
          by simp [downloadPhoto, htp, hmv, hw], Or.inr ⟨t, rfl⟩⟩
      · exact ⟨[], destPath opts info, false,
          by simp [downloadPhoto, htp, hmv, hw], Or.inl rfl⟩

/-- The loop trace is empty or begins with the process exit of a failed
navigation or with the click that leaves the starting URL of the loop. -/
lemma loop_head (env : Env) (latest : String) (fuel : Nat) (cur : String) (fs : List String) :
    (loop env latest fuel cur fs).1 = [] ∨
    (loop env latest fuel cur fs).1.head? = some (Ev.exitProcess 1) ∨
    (loop env latest fuel cur fs).1.head? = some (Ev.clickPrev cur 0) := by
  cases fuel with
  | zero => exact Or.inl rfl
  | succ n =>
    by_cases hstop : clean cur = clean latest
    · left
      simp [loop, hstop]
    · rcases advanceToPrevious_cases (env.elements cur) with hadv | hadv
      · right; right
        simp only [loop, hstop, if_neg, hadv]
        by_cases hexit : (loopDownload env cur fs).2.2 = true
        · simp [hexit, hstop]
        · simp [hexit, hstop]
      · right; left
        simp [loop, hstop, hadv]

/-- Splitting an append at a checkpoint event: when the left part is
free of checkpoint events, the split point lies in the right part. -/
lemma split_at_save (P rest xs ys : List Ev) (u : String)
    (hP : ∀ e ∈ P, isSaveEv e = false)
    (heq : P ++ rest = xs ++ Ev.saveCheckpoint u :: ys) :
    ∃ xs2, xs = P ++ xs2 ∧ rest = xs2 ++ Ev.saveCheckpoint u :: ys := by
  induction P generalizing xs with
  | nil =>
    exact ⟨xs, by simp, by simpa using heq⟩
  | cons p P2 ih =>
    cases xs with
    | nil =>
      rw [List.nil_append] at heq
      have hp : p = Ev.saveCheckpoint u := by
        have := congrArg List.head? heq
        simpa using this
      have := hP p (by simp)
      rw [hp] at this
      exact absurd this (by simp [isSaveEv])
    | cons x xs2 =>
      rw [List.cons_append, List.cons_append] at heq
      have h1 : p = x := by
        have := congrArg List.head? heq
        simpa using this
      have h2 : P2 ++ rest = xs2 ++ Ev.saveCheckpoint u :: ys := by
        have := congrArg List.tail heq
        simpa using this
      obtain ⟨xs3, hxs, hrest⟩ := ih xs2 (fun e he => hP e (List.mem_cons_of_mem p he)) h2
      exact ⟨xs3, by rw [List.cons_append, h1, hxs], hrest⟩

/-- Loop unfolding, stop branch. -/
lemma loop_stop (env : Env) (latest : String) (n : Nat) (cur : String) (fs : List String)
    (hstop : clean cur = clean latest) :
    loop env latest (n + 1) cur fs = ([], Outcome.done) := by
  simp [loop, hstop]

/-- Loop unfolding, invisible-arrow branch: exit 1 with no cleanup. -/
lemma loop_noclick (env : Env) (latest : String) (n : Nat) (cur : String) (fs : List String)
    (hstop : ¬ clean cur = clean latest)
    (hadv : advanceToPrevious (env.elements cur) = (false, [])) :
    loop env latest (n + 1) cur fs = ([Ev.exitProcess 1], Outcome.exited 1) := by
  simp [loop, hstop, hadv]

/-- Loop unfolding, failed-download branch: exit 1 after the click, the
navigation and the download events, with no cleanup. -/
lemma loop_clicked_exit (env : Env) (latest : String) (n : Nat) (cur : String) (fs : List String)
    (hstop : ¬ clean cur = clean latest)
    (hadv : advanceToPrevious (env.elements cur) = (true, [0]))
    (hex : (loopDownload env cur fs).2.2 = true) :
    loop env latest (n + 1) cur fs
      = (Ev.clickPrev cur 0 :: Ev.navigate cur (env.next cur) :: (loopDownload env cur fs).1,
         Outcome.exited 1) := by
  simp [loop, hstop, hadv, hex]

/-- Loop unfolding, normal iteration: click, navigation, the download
events, the checkpoint write of the new URL, then the rest of the loop
from the new URL. -/
lemma loop_clicked (env : Env) (latest : String) (n : Nat) (cur : String) (fs : List String)
    (hstop : ¬ clean cur = clean latest)
    (hadv : advanceToPrevious (env.elements cur) = (true, [0]))
    (hex : (loopDownload env cur fs).2.2 = false) :
    loop env latest (n + 1) cur fs
      = ((Ev.clickPrev cur 0 :: Ev.navigate cur (env.next cur) :: (loopDownload env cur fs).1)
          ++ Ev.saveCheckpoint (env.next cur)
            :: (loop env latest n (env.next cur) (loopDownload env cur fs).2.1).1,
         (loop env latest n (env.next cur) (loopDownload env cur fs).2.1).2) := by
  simp [loop, hstop, hadv, hex]

/-- A list free of checkpoint events cannot be split at one. -/
lemma no_save_append (l xs ys : List Ev) (u : String)
    (hl : ∀ e ∈ l, isSaveEv e = false) :
    l ≠ xs ++ Ev.saveCheckpoint u :: ys := by
  intro h
  have := hl (Ev.saveCheckpoint u)
    (by rw [h]; exact List.mem_append_right _ (by simp))
  simp [isSaveEv] at this

/-- Claim C1 (amended).  In every iteration of the backup loop, the
checkpoint write of a URL is immediately preceded by the placement
attempt of that same URL — the attempt may have failed, because move
failures are caught and only logged — and is immediately followed by
either the end of the loop or the click that advances away from that
URL.  In particular every checkpoint write happens after the placement
attempt of its photo and before the navigation advance to the next
photo, but not necessarily after a successful placement. -/
theorem c1_loop_checkpoint_order (env : Env) (latest : String) (fuel : Nat) :
    ∀ (cur : String) (fs : List String) (xs ys : List Ev) (u : String),
      (loop env latest fuel cur fs).1 = xs ++ Ev.saveCheckpoint u :: ys →
      (∃ dd ok, xs.getLast? = some (Ev.placeAttempt u dd ok)) ∧
      (ys = [] ∨ ys.head? = some (Ev.exitProcess 1) ∨ ys.head? = some (Ev.clickPrev u 0)) := by
  induction fuel with
  | zero =>
    intro cur fs xs ys u h
    simp [loop] at h
  | succ n ih =>
    intro cur fs xs ys u h
    by_cases hstop : clean cur = clean latest
    · rw [loop_stop env latest n cur fs hstop] at h
      simp at h
    · rcases advanceToPrevious_cases (env.elements cur) with hadv | hadv
      · rcases downloadPhoto_cases (env.next cur) (env.info (env.next cur))
            (DlOpts.mk env.photoDirectory false env.writeScrapedExif false) fs with
          ⟨hex, htr, hfs⟩ | ⟨hex, w, dd0, ok0, htr, hw⟩
        · have hex2 : (loopDownload env cur fs).2.2 = true := hex
          have htr2 : (loopDownload env cur fs).1
              = [Ev.download (env.next cur), Ev.exitProcess 1] := htr
          rw [loop_clicked_exit env latest n cur fs hstop hadv hex2, htr2] at h
          refine absurd h (no_save_append _ xs ys u ?_)
          intro e he
          simp only [List.mem_cons, List.not_mem_nil, or_false] at he
          rcases he with h1 | h1 | h1 | h1 <;> simp [h1, isSaveEv]
        · have hex2 : (loopDownload env cur fs).2.2 = false := hex
          have htr2 : (loopDownload env cur fs).1
              = Ev.download (env.next cur)
                :: (w ++ [Ev.placeAttempt (env.next cur) dd0 ok0]) := htr
          rw [loop_clicked env latest n cur fs hstop hadv hex2] at h
          have hPn : ∀ e ∈ (Ev.clickPrev cur 0 :: Ev.navigate cur (env.next cur)
              :: (loopDownload env cur fs).1), isSaveEv e = false := by
            intro e he
            rw [htr2] at he
            simp only [List.mem_cons, List.mem_append, List.mem_singleton] at he
            rcases he with h1 | h1 | h1 | h1 | h1
            · simp [h1, isSaveEv]
            · simp [h1, isSaveEv]
            · simp [h1, isSaveEv]
            · rcases hw with hw0 | ⟨t, hwt⟩
              · rw [hw0] at h1
                simp at h1
              · rw [hwt] at h1
                simp only [List.mem_singleton] at h1
                simp [h1, isSaveEv]
            · rcases h1 with h1 | h1
              · simp [h1, isSaveEv]
              · simp at h1
          obtain ⟨xs2, hxs, hrest⟩ := split_at_save _ _ xs ys u hPn h
          cases xs2 with
          | nil =>
            rw [List.nil_append] at hrest
            injection hrest with hhead htail
            injection hhead with hu
            subst hu
            refine ⟨⟨dd0, ok0, ?_⟩, ?_⟩
            · rw [hxs, List.append_nil, htr2]
              rw [show Ev.clickPrev cur 0 :: Ev.navigate cur (env.next cur)
                    :: Ev.download (env.next cur)
                      :: (w ++ [Ev.placeAttempt (env.next cur) dd0 ok0])
                  = (Ev.clickPrev cur 0 :: Ev.navigate cur (env.next cur)
                      :: Ev.download (env.next cur) :: w)
                    ++ [Ev.placeAttempt (env.next cur) dd0 ok0] by simp]
              exact List.getLast?_concat _
            · rw [← htail]
              exact loop_head env latest n (env.next cur) (loopDownload env cur fs).2.1
          | cons x xs3 =>
            rw [List.cons_append] at hrest
            injection hrest with hhead htail
            obtain ⟨⟨dd1, ok1, hlast⟩, hys⟩ :=
              ih (env.next cur) (loopDownload env cur fs).2.1 xs3 ys u htail
            refine ⟨⟨dd1, ok1, ?_⟩, hys⟩
            rw [hxs, List.getLast?_append]
            rw [show x :: xs3 = [x] ++ xs3 from rfl, List.getLast?_append, hlast]
            rfl
      · rw [loop_noclick env latest n cur fs hstop hadv] at h
        refine absurd h (no_save_append _ xs ys u ?_)
        intro e he
        simp only [List.mem_singleton] at he
        simp [he, isSaveEv]

/-- Claim C1, witness: the ordering theorem applied to a concrete
two-photo run whose single loop iteration downloads u1, places it
successfully and checkpoints it. -/
theorem c1_loop_checkpoint_order_witness :
    (∃ dd ok, [Ev.clickPrev "u0" 0, Ev.navigate "u0" "u1", Ev.download "u1",
        Ev.placeAttempt "u1" "root/1970/1/b.jpg" true].getLast?
      = some (Ev.placeAttempt "u1" dd ok)) ∧
    (([] : List Ev) = [] ∨ ([] : List Ev).head? = some (Ev.exitProcess 1) ∨
      ([] : List Ev).head? = some (Ev.clickPrev "u1" 0)) :=
  c1_loop_checkpoint_order envTwo "u1" 2 "u0" []
    [Ev.clickPrev "u0" 0, Ev.navigate "u0" "u1", Ev.download "u1",
     Ev.placeAttempt "u1" "root/1970/1/b.jpg" true] [] "u1" (by decide)

/-- A two-photo library in which the photo at u1 carries a May 2020
date and its destination path already exists, so its placement fails. -/
def envFail : Env :=
  Env.mk (some "u0") none mainGooglePhotosUrl (some "u1")
    (fun u => PhotoInfo.mk (some "/tmp/t") (if u = "u1" then "b.jpg" else "a.jpg")
      (some (ExifDate.mk (some 2020) (some 5))) "")
    (fun _ => [Elem.mk false])
    (fun _ => "u1") false false "root" []

/-- Claim C1, counterexample to the frozen claim: in this run the move
of the photo at u1 fails (its destination already exists and overwrite
is false in the loop), the failure is merely logged, and the checkpoint
is nevertheless updated to u1 — so the checkpoint is updated to the URL
of a photo whose placement failed. -/
theorem c1_counterexample :
    (loop envFail "u1" 2 "u0" ["root/2020/5/b.jpg"]).1
      = [Ev.clickPrev "u0" 0, Ev.navigate "u0" "u1", Ev.download "u1",
         Ev.placeAttempt "u1" "root/2020/5/b.jpg" false, Ev.saveCheckpoint "u1"] ∧
    (loop envFail "u1" 2 "u0" ["root/2020/5/b.jpg"]).2 = Outcome.done := by decide

/-- A downloadPhoto invocation whose driver reports a path never calls
process.exit. -/
lemma downloadPhoto_ok (u : String) (info : PhotoInfo) (opts : DlOpts)
    (fs : List String) (t : String) (ht : info.tempPath = some t) :
    (downloadPhoto u info opts fs).2.2 = false := by
  cases hmv : moveFile fs (destPath opts info) opts.overwrite with
  | some fs2 => simp [downloadPhoto, ht, hmv]
  | none => simp [downloadPhoto, ht, hmv]

/-- A cleaned URL with no remaining account-index segment is a fixed
point of clean. -/
lemma clean_fixed (s : String) (h : hasU s.toList = false) : clean s = s := by
  show String.mk (replaceFirstU s.toList) = s
  rw [replaceFirstU_id _ h]
  rfl

/-- Claim C3 (amended).  A run whose checkpoint canonicalizes equal to
the latest photo (and whose canonical form is fully canonicalized, as
every real photo URL is) terminates at the latest photo with outcome
done, after re-downloading exactly one photo — the checkpointed one,
placed with overwrite true — with no navigation click and no checkpoint
write; it does not terminate without downloading any photo. -/
theorem c3_idempotent_rerun (env : Env) (n : Nat) (c latest p : String)
    (hfile : env.lastdoneFile = some c) (hc : c ≠ "")
    (hred : env.redirectUrl = mainGooglePhotosUrl)
    (hl : jsStr env.latestPhoto = some latest)
    (heq : clean c = clean latest)
    (hidem : hasU (clean c).toList = false)
    (hp : (env.info (clean c)).tempPath = some p) :
    (start env (n + 1)).2 = Outcome.done ∧
    (start env (n + 1)).1.filter isDownloadEv = [Ev.download (clean c)] ∧
    (start env (n + 1)).1.filter isClickEv = [] ∧
    (start env (n + 1)).1.filter isSaveEv = [] := by
  have hinit : startInit env = some ([], c) := by
    simp [startInit, getProgress, hfile, hc]
  have hstop : clean (clean c) = clean latest := by
    rw [clean_fixed (clean c) hidem]
    exact heq
  have hex : (downloadPhoto (clean c) (env.info (clean c))
      (DlOpts.mk env.photoDirectory true env.writeScrapedExif env.flat) env.initialFs).2.2
      = false := downloadPhoto_ok _ _ _ _ p hp
  have hloop := loop_stop env latest n (clean c)
    (downloadPhoto (clean c) (env.info (clean c))
      (DlOpts.mk env.photoDirectory true env.writeScrapedExif env.flat) env.initialFs).2.1 hstop
  have hstart : (start env (n + 1)).1
      = [Ev.browserLaunch, Ev.gotoUrl mainGooglePhotosUrl, Ev.gotoUrl (clean c)]
        ++ (downloadPhoto (clean c) (env.info (clean c))
            (DlOpts.mk env.photoDirectory true env.writeScrapedExif env.flat) env.initialFs).1
        ++ [Ev.browserClose, Ev.exiftoolEnd]
      ∧ (start env (n + 1)).2 = Outcome.done := by
    simp only [start, hinit, hred, hl, ne_eq, not_true_eq_false, if_false, hex,
      Bool.false_eq_true, hloop]
    simp
  rcases downloadPhoto_cases (clean c) (env.info (clean c))
      (DlOpts.mk env.photoDirectory true env.writeScrapedExif env.flat) env.initialFs with
    ⟨hex1, _, _⟩ | ⟨_, w, dd0, ok0, htr, hw⟩
  · rw [hex] at hex1
    cases hex1
  · refine ⟨hstart.2, ?_, ?_, ?_⟩ <;> rw [hstart.1, htr]
    · rcases hw with hw0 | ⟨t, hwt⟩
      · simp [hw0, isDownloadEv, List.filter]
      · simp [hwt, isDownloadEv, List.filter]
    · rcases hw with hw0 | ⟨t, hwt⟩
      · simp [hw0, isClickEv, List.filter]
      · simp [hwt, isClickEv, List.filter]
    · rcases hw with hw0 | ⟨t, hwt⟩
      · simp [hw0, isSaveEv, List.filter]
      · simp [hwt, isSaveEv, List.filter]

/-- A one-photo library whose checkpoint already equals the latest
photo URL. -/
def envIdem : Env :=
  Env.mk (some "u1") none mainGooglePhotosUrl (some "u1")
    (fun _ => PhotoInfo.mk (some "/tmp/t") "a.jpg" none "")
    (fun _ => [Elem.mk false])
    (fun _ => "u1") false false "root" []

/-- Claim C3, witness: the amended theorem applied to the concrete
run whose checkpoint equals the latest photo. -/
theorem c3_idempotent_rerun_witness :
    (start envIdem 1).2 = Outcome.done ∧
    (start envIdem 1).1.filter isDownloadEv = [Ev.download (clean "u1")] ∧
    (start envIdem 1).1.filter isClickEv = [] ∧
    (start envIdem 1).1.filter isSaveEv = [] :=
  c3_idempotent_rerun envIdem 0 "u1" "u1" "/tmp/t" rfl (by decide) rfl rfl rfl
    (by decide) (by decide)

/-- Claim C3, counterexample to the frozen claim: the same run reaches
the latest photo and completes, but its trace contains a download — the
checkpointed photo is downloaded again (and placed with overwrite), so
the run does not terminate without downloading any photo. -/
theorem c3_counterexample :
    start envIdem 1
      = ([Ev.browserLaunch, Ev.gotoUrl mainGooglePhotosUrl, Ev.gotoUrl "u1",
          Ev.download "u1", Ev.placeAttempt "u1" "root/1970/1/a.jpg" true,
          Ev.browserClose, Ev.exiftoolEnd], Outcome.done) ∧
    (start envIdem 1).1.filter isDownloadEv = [Ev.download "u1"] := by decide

/-- downloadPhoto never releases the browser or the metadata tool. -/
lemma downloadPhoto_no_cleanup (u : String) (info : PhotoInfo) (opts : DlOpts)
    (fs : List String) :
    Ev.browserClose ∉ (downloadPhoto u info opts fs).1 ∧
    Ev.exiftoolEnd ∉ (downloadPhoto u info opts fs).1 := by
  rcases downloadPhoto_cases u info opts fs with ⟨_, htr, _⟩ | ⟨_, w, dd0, ok0, htr, hw⟩
  · rw [htr]
    exact ⟨by simp, by simp⟩
  · rw [htr]
    rcases hw with hw0 | ⟨t, hwt⟩
    · rw [hw0]
      exact ⟨by simp, by simp⟩
    · rw [hwt]
      exact ⟨by simp, by simp⟩

/-- The backup loop never releases the browser or the metadata tool: its
exits are bare process exits. -/
lemma loop_no_cleanup (env : Env) (latest : String) (fuel : Nat) :
    ∀ (cur : String) (fs : List String),
      Ev.browserClose ∉ (loop env latest fuel cur fs).1 ∧
      Ev.exiftoolEnd ∉ (loop env latest fuel cur fs).1 := by
  induction fuel with
  | zero => intro cur fs; exact ⟨by simp [loop], by simp [loop]⟩
  | succ n ih =>
    intro cur fs
    by_cases hstop : clean cur = clean latest
    · rw [loop_stop env latest n cur fs hstop]
      exact ⟨by simp, by simp⟩
    · rcases advanceToPrevious_cases (env.elements cur) with hadv | hadv
      · by_cases hex : (loopDownload env cur fs).2.2 = true
        · rw [loop_clicked_exit env latest n cur fs hstop hadv hex]
          have hdl := downloadPhoto_no_cleanup (env.next cur) (env.info (env.next cur))
            (DlOpts.mk env.photoDirectory false env.writeScrapedExif false) fs
          constructor
          · simp only [List.mem_cons]
            rintro (h | h | h) <;> first
              | cases h
              | exact hdl.1 h
          · simp only [List.mem_cons]
            rintro (h | h | h) <;> first
              | cases h
              | exact hdl.2 h
        · rw [loop_clicked env latest n cur fs hstop hadv
            (by simpa using hex)]
          have hdl := downloadPhoto_no_cleanup (env.next cur) (env.info (env.next cur))
            (DlOpts.mk env.photoDirectory false env.writeScrapedExif false) fs
          have hrest := ih (env.next cur) (loopDownload env cur fs).2.1
          constructor
          · simp only [List.mem_append, List.mem_cons]
            rintro ((h | h | h) | (h | h)) <;> first
              | cases h
              | exact hdl.1 h
              | exact hrest.1 h
          · simp only [List.mem_append, List.mem_cons]
            rintro ((h | h | h) | (h | h)) <;> first
              | cases h
              | exact hdl.2 h
              | exact hrest.2 h
      · rw [loop_noclick env latest n cur fs hstop hadv]
        exact ⟨by simp, by simp⟩

/-- Claim C5 (amended).  Both resources (browser session, metadata tool)
are released before termination on the authentication-redirect exit, on
the latest-photo-undetermined exit and on normal completion; but the
exits taken past those checks — the previous-navigation failure and the
missing-download-path failure — terminate the process without releasing
either resource. -/
theorem c5_resource_release :
    (∀ (env : Env) (fuel : Nat) (c : String), env.lastdoneFile = some c → c ≠ "" →
      env.redirectUrl ≠ mainGooglePhotosUrl →
      start env fuel = ([Ev.browserLaunch, Ev.gotoUrl mainGooglePhotosUrl,
        Ev.browserClose, Ev.exiftoolEnd, Ev.exitProcess 1], Outcome.exited 1)) ∧
    (∀ (env : Env) (fuel : Nat) (c : String), env.lastdoneFile = some c → c ≠ "" →
      env.redirectUrl = mainGooglePhotosUrl → jsStr env.latestPhoto = none →
      start env fuel = ([Ev.browserLaunch, Ev.gotoUrl mainGooglePhotosUrl,
        Ev.browserClose, Ev.exiftoolEnd, Ev.exitProcess 1], Outcome.exited 1)) ∧
    (∀ (env : Env) (fuel : Nat), (start env fuel).2 = Outcome.done →
      ∃ p, (start env fuel).1 = p ++ [Ev.browserClose, Ev.exiftoolEnd]) ∧
    (∀ (env : Env) (fuel : Nat) (c latest : String) (k : Nat),
      env.lastdoneFile = some c → c ≠ "" →
      env.redirectUrl = mainGooglePhotosUrl → jsStr env.latestPhoto = some latest →
      (start env fuel).2 = Outcome.exited k →
      Ev.browserClose ∉ (start env fuel).1 ∧ Ev.exiftoolEnd ∉ (start env fuel).1) := by
  refine ⟨?_, ?_, ?_, ?_⟩
  · intro env fuel c hfile hc hred
    have hinit : startInit env = some ([], c) := by
      simp [startInit, getProgress, hfile, hc]
    simp [start, hinit, hred]
  · intro env fuel c hfile hc hred hl
    have hinit : startInit env = some ([], c) := by
      simp [startInit, getProgress, hfile, hc]
    simp [start, hinit, hred, hl]
  · intro env fuel hdone
    cases hinit : startInit env with
    | none =>
      rw [show (start env fuel) = ([Ev.exitProcess 1], Outcome.exited 1) by
        simp [start, hinit]] at hdone
      cases hdone
    | some es =>
      obtain ⟨evs0, startLink⟩ := es
      by_cases hred : env.redirectUrl = mainGooglePhotosUrl
      · cases hl : jsStr env.latestPhoto with
        | none =>
          rw [show start env fuel = (evs0 ++ [Ev.browserLaunch,
              Ev.gotoUrl mainGooglePhotosUrl] ++ [Ev.browserClose, Ev.exiftoolEnd,
              Ev.exitProcess 1], Outcome.exited 1) by simp [start, hinit, hred, hl]] at hdone
          cases hdone
        | some latest =>
          by_cases hex : (downloadPhoto (clean startLink) (env.info (clean startLink))
              (DlOpts.mk env.photoDirectory true env.writeScrapedExif env.flat)
              env.initialFs).2.2 = true
          · rw [show (start env fuel).2 = Outcome.exited 1 by
              simp [start, hinit, hred, hl, hex]] at hdone
            cases hdone
          · rcases hout : (loop env latest fuel (clean startLink)
                (downloadPhoto (clean startLink) (env.info (clean startLink))
                  (DlOpts.mk env.photoDirectory true env.writeScrapedExif env.flat)
                  env.initialFs).2.1).2 with _ | k | _
            · refine ⟨evs0 ++ [Ev.browserLaunch, Ev.gotoUrl mainGooglePhotosUrl,
                Ev.gotoUrl (clean startLink)]
                ++ (downloadPhoto (clean startLink) (env.info (clean startLink))
                  (DlOpts.mk env.photoDirectory true env.writeScrapedExif env.flat)
                  env.initialFs).1
                ++ (loop env latest fuel (clean startLink)
                  (downloadPhoto (clean startLink) (env.info (clean startLink))
                    (DlOpts.mk env.photoDirectory true env.writeScrapedExif env.flat)
                    env.initialFs).2.1).1, ?_⟩
              simp only [start, hinit, hred, hl, ne_eq, not_true_eq_false, if_false, hex,
                Bool.false_eq_true, hout]
              simp
            · rw [show (start env fuel).2 = Outcome.exited k by
                simp [start, hinit, hred, hl, hex, hout]] at hdone
              cases hdone
            · rw [show (start env fuel).2 = Outcome.fuelOut by
                simp [start, hinit, hred, hl, hex, hout]] at hdone
              cases hdone
      · rw [show (start env fuel).2 = Outcome.exited 1 by
          simp [start, hinit, hred]] at hdone
        cases hdone
  · intro env fuel c latest k hfile hc hred hl hexit
    have hinit : startInit env = some ([], c) := by
      simp [startInit, getProgress, hfile, hc]
    have hdl := downloadPhoto_no_cleanup (clean c) (env.info (clean c))
      (DlOpts.mk env.photoDirectory true env.writeScrapedExif env.flat) env.initialFs
    by_cases hex : (downloadPhoto (clean c) (env.info (clean c))
        (DlOpts.mk env.photoDirectory true env.writeScrapedExif env.flat)
        env.initialFs).2.2 = true
    · have htr : (start env fuel).1 = [Ev.browserLaunch, Ev.gotoUrl mainGooglePhotosUrl,
          Ev.gotoUrl (clean c)] ++ (downloadPhoto (clean c) (env.info (clean c))
          (DlOpts.mk env.photoDirectory true env.writeScrapedExif env.flat)
          env.initialFs).1 := by
        simp [start, hinit, hred, hl, hex]
      rw [htr]
      constructor
      · simp only [List.mem_append, List.mem_cons]
        rintro ((h | h | h | h) | h) <;> first
          | cases h
          | exact hdl.1 h
      · simp only [List.mem_append, List.mem_cons]
        rintro ((h | h | h | h) | h) <;> first
          | cases h
          | exact hdl.2 h
    · have hloopn := loop_no_cleanup env latest fuel (clean c)
        (downloadPhoto (clean c) (env.info (clean c))
          (DlOpts.mk env.photoDirectory true env.writeScrapedExif env.flat) env.initialFs).2.1
      rcases hout : (loop env latest fuel (clean c)
          (downloadPhoto (clean c) (env.info (clean c))
            (DlOpts.mk env.photoDirectory true env.writeScrapedExif env.flat)
            env.initialFs).2.1).2 with _ | k2 | _
      · rw [show (start env fuel).2 = Outcome.done by
          simp [start, hinit, hred, hl, hex, hout]] at hexit
        cases hexit
      · have htr : (start env fuel).1 = [Ev.browserLaunch, Ev.gotoUrl mainGooglePhotosUrl,
            Ev.gotoUrl (clean c)] ++ (downloadPhoto (clean c) (env.info (clean c))
            (DlOpts.mk env.photoDirectory true env.writeScrapedExif env.flat)
            env.initialFs).1 ++ (loop env latest fuel (clean c)
            (downloadPhoto (clean c) (env.info (clean c))
              (DlOpts.mk env.photoDirectory true env.writeScrapedExif env.flat)
              env.initialFs).2.1).1 := by
          simp [start, hinit, hred, hl, hex, hout]
        rw [htr]
        constructor
        · simp only [List.mem_append, List.mem_cons]
          rintro (((h | h | h | h) | h) | h) <;> first
            | cases h
            | exact hdl.1 h
            | exact hloopn.1 h
        · simp only [List.mem_append, List.mem_cons]
          rintro (((h | h | h | h) | h) | h) <;> first
            | cases h
            | exact hdl.2 h
            | exact hloopn.2 h
      · have htr : (start env fuel).1 = [Ev.browserLaunch, Ev.gotoUrl mainGooglePhotosUrl,
            Ev.gotoUrl (clean c)] ++ (downloadPhoto (clean c) (env.info (clean c))
            (DlOpts.mk env.photoDirectory true env.writeScrapedExif env.flat)
            env.initialFs).1 ++ (loop env latest fuel (clean c)
            (downloadPhoto (clean c) (env.info (clean c))
              (DlOpts.mk env.photoDirectory true env.writeScrapedExif env.flat)
              env.initialFs).2.1).1 := by
          simp [start, hinit, hred, hl, hex, hout]
        rw [htr]
        constructor
        · simp only [List.mem_append, List.mem_cons]
          rintro (((h | h | h | h) | h) | h) <;> first
            | cases h
            | exact hdl.1 h
            | exact hloopn.1 h
        · simp only [List.mem_append, List.mem_cons]
          rintro (((h | h | h | h) | h) | h) <;> first
            | cases h
            | exact hdl.2 h
            | exact hloopn.2 h

/-- Environment whose library home visit is redirected to a login page. -/
def envRedir : Env :=
  Env.mk (some "u0") none "https://accounts.google.com/ServiceLogin" (some "u1")
    (fun _ => PhotoInfo.mk (some "/tmp/t") "a.jpg" none "")
    (fun _ => [Elem.mk false])
    (fun _ => "u1") false false "root" []

/-- Environment whose latest-photo probe yields nothing. -/
def envNoLatest : Env :=
  Env.mk (some "u0") none mainGooglePhotosUrl none
    (fun _ => PhotoInfo.mk (some "/tmp/t") "a.jpg" none "")
    (fun _ => [Elem.mk false])
    (fun _ => "u1") false false "root" []

/-- Environment in which the page at the checkpoint has no
previous-navigation control, so the loop exits mid-library. -/
def envNoArrow : Env :=
  Env.mk (some "u0") none mainGooglePhotosUrl (some "u9")
    (fun _ => PhotoInfo.mk (some "/tmp/t") "a.jpg" none "")
    (fun _ => [])
    (fun _ => "u9") false false "root" []

/-- Claim C5, witness: the four parts of the amended theorem at concrete
runs — a redirected run, a run with no latest photo, a completing run,
and a run that exits on the previous-navigation failure path. -/
theorem c5_resource_release_witness :
    start envRedir 1 = ([Ev.browserLaunch, Ev.gotoUrl mainGooglePhotosUrl,
      Ev.browserClose, Ev.exiftoolEnd, Ev.exitProcess 1], Outcome.exited 1) ∧
    start envNoLatest 1 = ([Ev.browserLaunch, Ev.gotoUrl mainGooglePhotosUrl,
      Ev.browserClose, Ev.exiftoolEnd, Ev.exitProcess 1], Outcome.exited 1) ∧
    (∃ p, (start envTwo 3).1 = p ++ [Ev.browserClose, Ev.exiftoolEnd]) ∧
    (Ev.browserClose ∉ (start envNoArrow 2).1 ∧ Ev.exiftoolEnd ∉ (start envNoArrow 2).1) :=
  ⟨c5_resource_release.1 envRedir 1 "u0" rfl (by decide) (by decide),
   c5_resource_release.2.1 envNoLatest 1 "u0" rfl (by decide) rfl rfl,
   c5_resource_release.2.2.1 envTwo 3 (by decide),
   c5_resource_release.2.2.2 envNoArrow 2 "u0" "u9" 1 rfl (by decide) rfl rfl (by decide)⟩

/-- Claim C5, counterexample to the frozen claim: the run that fails to
find a previous-navigation control exits with code 1 and neither the
browser session nor the metadata tool is released on that path (and the
same run shape with a missing download path also exits bare). -/
theorem c5_counterexample :
    start envNoArrow 2
      = ([Ev.browserLaunch, Ev.gotoUrl mainGooglePhotosUrl, Ev.gotoUrl "u0",
          Ev.download "u0", Ev.placeAttempt "u0" "root/1970/1/a.jpg" true,
          Ev.exitProcess 1], Outcome.exited 1) ∧
    Ev.browserClose ∉ (start envNoArrow 2).1 ∧
    Ev.exiftoolEnd ∉ (start envNoArrow 2).1 := by decide
